import Mathlib

/-!
# toxfile: a shallow embedding of `src/toxfile/toxfile.c`

The program is a command-line front end over the tox engine.  The engine, the C
library and the operator are modelled as an environment (`Env`) whose answers
the code consumes; the file system, the two output streams and a trace of the
observable calls form the state (`World`) that is threaded through every
function.  The default build (encryption support compiled in) is modelled.
-/

namespace Toxfile

/-! ## Bytes and C buffers -/

/-- A `uint8_t`. -/
abbrev Byte := Fin 256

/-- What `printf("%02X", v)` emits: the upper-case hexadecimal digits of `v`,
padded on the left with `0` up to a minimum width of two. -/
def printf_02X (v : Nat) : String :=
  let ds := (Nat.toDigits 16 v).map Char.toUpper
  String.mk (List.replicate (2 - ds.length) '0' ++ ds)

/-- The digit of value `d` in upper-case hexadecimal. -/
def upper_hex_digit (d : Nat) : Char :=
  "0123456789ABCDEF".data.getD d '0'

/-- The rendering of one byte in the words of the specification: two upper-case
hexadecimal digits, high nibble first. -/
def hex_pair (b : Byte) : String :=
  String.mk [upper_hex_digit (b.val / 16), upper_hex_digit (b.val % 16)]

/-- The rendering of a byte sequence in the words of the specification: the
renderings of its bytes, concatenated in array order with nothing in between. -/
def hex_render : List Byte → String
  | [] => ""
  | b :: bs => hex_pair b ++ hex_render bs

/-- `print_bytes(data, size)`: the loop `for i < size: printf("%02X", data[i])`,
returning the characters it sends to standard output.  The array and its size
are one list. -/
def print_bytes (data : List Byte) : String :=
  data.foldl (fun out b => out ++ printf_02X b.val) ""

/-- Contents of an `n`-byte buffer after the engine copied `src` to its start.
Bytes the engine did not write read as zero (the buffers that matter are
`memset` to zero by the code; for the others the engine writes all `n`), and
what the engine writes past the end of the buffer is not part of it. -/
def fill_buffer (n : Nat) (src : List Byte) : List Byte :=
  (src ++ List.replicate (n - src.length) 0).take n

/-- The text of a byte sequence: its bytes before the first NUL, as characters. -/
def c_text (src : List Byte) : String :=
  String.mk ((src.takeWhile (fun b => b ≠ 0)).map (fun b => Char.ofNat b.val))

/-- What `printf("%s", buf)` emits for a byte buffer: the bytes before the first
NUL.  When the buffer holds no NUL the scan runs on into `beyond`, the bytes
that follow the buffer in memory. -/
def c_string (buf beyond : List Byte) : String :=
  c_text (buf ++ beyond)

/-- `strlen` bytes of a NUL-terminated buffer. -/
def c_strlen_bytes (buf : List Byte) : List Byte :=
  buf.takeWhile (fun b => b ≠ 0)

/-! ## Constants of the headers that are not among the sources -/

/-- Constants the code takes from `toxfile.h`, `tox/tox.h` and
`tox/toxencryptsave.h`.  They are parameters of the model. -/
structure Consts where
  TOXFILE_ERR_FOPEN : Int
  TOXFILE_ERR_FWRITE : Int
  TOXFILE_ERR_ENCRYPTED_SAVE : Int
  TOXFILE_ERR_ALREADY_ENC : Int
  TOX_ADDRESS_SIZE : Nat
  TOX_PUBLIC_KEY_SIZE : Nat
  TOX_SECRET_KEY_SIZE : Nat
  TOX_MAX_NAME_LENGTH : Nat
  TOX_MAX_STATUS_MESSAGE_LENGTH : Nat
  TOX_PASS_ENCRYPTION_EXTRA_LENGTH : Nat
  TOXFILE_PROJ_VERSION : String

/-- The engine constants as toxcore publishes them, with sample values for the
four `TOXFILE_ERR_*` codes and the version text. -/
def toxConsts : Consts where
  TOXFILE_ERR_FOPEN := 1
  TOXFILE_ERR_FWRITE := 2
  TOXFILE_ERR_ENCRYPTED_SAVE := 3
  TOXFILE_ERR_ALREADY_ENC := 4
  TOX_ADDRESS_SIZE := 38
  TOX_PUBLIC_KEY_SIZE := 32
  TOX_SECRET_KEY_SIZE := 32
  TOX_MAX_NAME_LENGTH := 128
  TOX_MAX_STATUS_MESSAGE_LENGTH := 1007
  TOX_PASS_ENCRYPTION_EXTRA_LENGTH := 80
  TOXFILE_PROJ_VERSION := "0.1"

/-- `EXIT_SUCCESS`. -/
def EXIT_SUCCESS : Int := 0

/-- `EXIT_FAILURE`. -/
def EXIT_FAILURE : Int := 1

/-! ## The engine handle -/

/-- A `Tox *`: what the engine reports for a profile. -/
structure Tox where
  savedata : List Byte
  address : List Byte
  name : List Byte
  status_message : List Byte
  public_key : List Byte
  secret_key : List Byte
deriving DecidableEq, Repr

/-- `tox_get_savedata_size`. -/
def tox_get_savedata_size (tox : Tox) : Nat := tox.savedata.length

/-- The handle honours the engine's interface: fixed-length fields have their
length, texts fit their buffers, the save size is a 32-bit value. -/
def Tox.Loaded (c : Consts) (tox : Tox) : Prop :=
  tox.address.length = c.TOX_ADDRESS_SIZE ∧
  tox.public_key.length = c.TOX_PUBLIC_KEY_SIZE ∧
  tox.secret_key.length = c.TOX_SECRET_KEY_SIZE ∧
  tox.name.length ≤ c.TOX_MAX_NAME_LENGTH ∧
  tox.status_message.length ≤ c.TOX_MAX_STATUS_MESSAGE_LENGTH ∧
  tox_get_savedata_size tox < 2 ^ 32

instance (c : Consts) (tox : Tox) : Decidable (tox.Loaded c) := by
  unfold Tox.Loaded; infer_instance

/-- The name and the status message leave room for a NUL in their buffers. -/
def Tox.TextsTerminated (c : Consts) (tox : Tox) : Prop :=
  tox.name.length < c.TOX_MAX_NAME_LENGTH ∧
  tox.status_message.length < c.TOX_MAX_STATUS_MESSAGE_LENGTH

instance (c : Consts) (tox : Tox) : Decidable (tox.TextsTerminated c) := by
  unfold Tox.TextsTerminated; infer_instance

/-! ## Program state and environment -/

/-- What a path names. -/
inductive Entry where
  | regular (data : List Byte)
  | nonRegular
deriving DecidableEq, Repr

/-- Observable calls, recorded in order. -/
inductive Event where
  | fopen (path : String) (ok : Bool)
  | malloc (size : Nat)
  | fwrite (path : String) (requested written : Nat)
  | tox_pass_encrypt
  | prompt_yn
  | getpass
  | tox_new
  | tox_kill
  | toxfile_save (path : String)
  | print_tox_fields
deriving DecidableEq, Repr

/-- File system (latest binding of a path first), the output streams and the
trace. -/
structure World where
  fs : List (String × Entry)
  stdout : String
  stderr : String
  trace : List Event
deriving DecidableEq, Repr

/-- Result of `stat`: the entry at `path`, if any. -/
def World.stat (w : World) (path : String) : Option Entry := w.fs.lookup path

/-- `printf`. -/
def World.print (w : World) (s : String) : World := { w with stdout := w.stdout ++ s }

/-- `fprintf(stderr, ...)`. -/
def World.eprint (w : World) (s : String) : World := { w with stderr := w.stderr ++ s }

/-- Append to the trace. -/
def World.log (w : World) (e : Event) : World := { w with trace := w.trace ++ [e] }

/-- The operator's reaction to the overwrite prompt. -/
inductive Reply where
  | ioError
  | yes
  | no
  | empty
deriving DecidableEq, Repr

/-- Result of `tox_pass_encrypt`: the ciphertext with `TOX_ERR_ENCRYPTION_OK`, or
another error code. -/
inductive EncryptResult where
  | ok (ciphertext : List Byte)
  | error (code : Int)
deriving DecidableEq, Repr

/-- Result of `tox_new`: a handle with `TOX_ERR_NEW_OK`, or another error code. -/
inductive NewResult where
  | ok (tox : Tox)
  | error (code : Int)
deriving DecidableEq, Repr

/-- Result of `toxfile_open`: the handle and the `TOXFILE_ERR_OPEN` value. -/
inductive OpenResult where
  | ok (tox : Tox)
  | ok_encrypted (tox : Tox)
  | error (code : Int)
deriving DecidableEq, Repr

/-- Everything outside the program: the C library, the engine, the operator. -/
structure Env where
  /-- whether `fopen(path, "w")` succeeds -/
  fopen_ok : String → Bool
  /-- how many bytes an `fwrite` hands to the stream at most -/
  fwrite_cap : Nat
  /-- how many of the bytes handed to the stream reach the file at most, by the
  time `fclose` has flushed it -/
  flush_cap : Nat
  /-- the largest array the stack can hold, in bytes -/
  stack_limit : Nat
  /-- what the operator does at the overwrite prompt -/
  reply : Reply
  /-- the buffer `getpass` fills -/
  passphrase : List Byte
  /-- the engine's encryption of a plaintext under a passphrase -/
  tox_pass_encrypt : List Byte → List Byte → EncryptResult
  /-- the engine's construction of a fresh profile -/
  tox_new : NewResult
  /-- the repository's loader (`toxfile_util.c`) -/
  toxfile_open : Option String → OpenResult
  /-- the bytes that follow a text buffer in memory -/
  beyond : List Byte

/-- `fopen(path, "w")` / `fopen(path, "wb")`: whether it succeeds is the
environment's verdict; on success the path names an empty regular file (created
or truncated). -/
def fopen_w (env : Env) (w : World) (path : String) : World × Bool :=
  if env.fopen_ok path then
    ({ w with fs := (path, Entry.regular []) :: w.fs }.log (Event.fopen path true), true)
  else
    (w.log (Event.fopen path false), false)

/-- Bytes appended to the file open at `path`. -/
def World.append (w : World) (path : String) (bytes : List Byte) : World :=
  match w.stat path with
  | some (Entry.regular d) => { w with fs := (path, Entry.regular (d ++ bytes)) :: w.fs }
  | _ => w

/-- `fwrite(buf, 1, n, file)`: the stream takes the first `min n fwrite_cap`
bytes and that count is returned.  What reaches the file is settled by
`fclose`. -/
def fwrite (env : Env) (w : World) (path : String) (n : Nat) : World × Nat :=
  let written := min n env.fwrite_cap
  (w.log (Event.fwrite path n written), written)

/-- `fclose(file)` on a stream that took the bytes `taken`: the first
`flush_cap` of them reach the file.  The code drops the value `fclose` returns,
so the model has none. -/
def fclose (env : Env) (w : World) (path : String) (taken : List Byte) : World :=
  w.append path (taken.take env.flush_cap)

/-- How a function that may end the process comes to its end: it returns, the
process calls `exit`, or the process is killed by a signal. -/
inductive Outcome (α : Type) where
  | ret (a : α)
  | exit (status : Int)
  | killed
deriving DecidableEq, Repr

/-- The status reported for a process killed by `SIGSEGV` (128 + 11). -/
def KILLED_STATUS : Int := 139

/-! ## The argument record -/

/-- The values `args->operation` takes. -/
inductive Operation where
  | TOXFILE_OP_NONE
  | TOXFILE_OP_NEW
  | TOXFILE_OP_ENCRYPT
  | TOXFILE_OP_DECRYPT
deriving DecidableEq, Repr

/-- The values `args->exclusive_print` takes. -/
inductive ExclusivePrint where
  | TOXFILE_EXPRINT_NONE
  | TOXFILE_EXPRINT_ADDRESS
  | TOXFILE_EXPRINT_NAME
  | TOXFILE_EXPRINT_PUBKEY
  | TOXFILE_EXPRINT_SECKEY
  | TOXFILE_EXPRINT_STATUS
deriving DecidableEq, Repr

open Operation ExclusivePrint

/-- The record `toxfile_args_t`; a `char *` that may be `NULL` is an `Option`. -/
structure Args where
  operation : Operation
  exclusive_print : ExclusivePrint
  savepath : Option String
  new_path : Option String
  opened_path : Option String
  print_help : Bool
  print_version : Bool
  was_encrypted : Bool
deriving DecidableEq, Repr

/-- Modelled from the spec: the initialiser `INIT_TOXFILE_ARGS` of `toxfile.h`
is not among the sources; the request starts with no operation, no exclusive
print, no paths and every flag clear. -/
def INIT_TOXFILE_ARGS : Args where
  operation := TOXFILE_OP_NONE
  exclusive_print := TOXFILE_EXPRINT_NONE
  savepath := none
  new_path := none
  opened_path := none
  print_help := false
  print_version := false
  was_encrypted := false

/-- A path argument handed to the C library (`NULL` reads as the empty path). -/
def c_path (p : Option String) : String := p.getD ""

/-! ## Saving -/

/-- `toxfile_save`.  The buffer is an array on the stack (`uint8_t data[size]`):
when the stack cannot hold it the process is killed, the file already opened
and truncated. -/
def toxfile_save (c : Consts) (env : Env) (w : World) (tox : Tox) (path : String) :
    World × Outcome Int :=
  let w := w.log (Event.toxfile_save path)
  match fopen_w env w path with
  | (w, false) => (w.eprint "error opening file\n", Outcome.ret c.TOXFILE_ERR_FOPEN)
  | (w, true) =>
    -- uint32_t size = tox_get_savedata_size(tox); uint8_t data[size];
    let size := tox_get_savedata_size tox % 2 ^ 32
    if size > env.stack_limit then
      (w, Outcome.killed)
    else
      let data := fill_buffer size tox.savedata
      let (w, written) := fwrite env w path size
      let w := fclose env w path (data.take written)
      if written ≠ size then
        (w.eprint "count mismatch while saving file\n", Outcome.ret c.TOXFILE_ERR_FWRITE)
      else
        (w, Outcome.ret 0)

/-- The value of `data_size + TOX_PASS_ENCRYPTION_EXTRA_LENGTH` where
`data_size` is a `uint32_t` and the constant an `int` literal: the sum is taken
in 32-bit unsigned arithmetic before it is stored in the `size_t`. -/
def encdata_size (c : Consts) (data_size : Nat) : Nat :=
  (data_size + c.TOX_PASS_ENCRYPTION_EXTRA_LENGTH) % 2 ^ 32

/-- `toxfile_save_enc`. -/
def toxfile_save_enc (c : Consts) (env : Env) (w : World) (tox : Tox) (path : String)
    (pass : List Byte) : World × Int :=
  match fopen_w env w path with
  | (w, false) => (w.eprint "error opening file\n", c.TOXFILE_ERR_FOPEN)
  | (w, true) =>
    let data_size := tox_get_savedata_size tox % 2 ^ 32
    let w := w.log (Event.malloc data_size)
    let data := fill_buffer data_size tox.savedata
    let encdata_size := encdata_size c data_size
    let w := w.log (Event.malloc encdata_size)
    let w := w.log Event.tox_pass_encrypt
    match env.tox_pass_encrypt data (c_strlen_bytes pass) with
    | EncryptResult.error code =>
      let w := fclose env w path []
      (w.eprint ("tox_pass_encrypt error: " ++ toString code ++ "\n"),
        c.TOXFILE_ERR_ENCRYPTED_SAVE)
    | EncryptResult.ok ciphertext =>
      let encdata := fill_buffer encdata_size ciphertext
      let (w, written) := fwrite env w path encdata_size
      let w := fclose env w path (encdata.take written)
      if written ≠ encdata_size then
        (w.eprint "count mismatch while saving file\n", c.TOXFILE_ERR_FWRITE)
      else
        (w, 0)

/-- `toxfile_decrypt`. -/
def toxfile_decrypt (c : Consts) (env : Env) (w : World) (tox : Tox) (args : Args) :
    World × Int :=
  if !args.was_encrypted then
    (w.eprint "Tox save file is already unencrypted\n", c.TOXFILE_ERR_ALREADY_ENC)
  else
    let size := tox_get_savedata_size tox % 2 ^ 32
    let w := w.log (Event.malloc size)
    let savedata := fill_buffer size tox.savedata
    match fopen_w env w (c_path args.opened_path) with
    | (w, false) => (w.eprint "error opening file to save\n", c.TOXFILE_ERR_FOPEN)
    | (w, true) =>
      let (w, written) := fwrite env w (c_path args.opened_path) size
      let w := fclose env w (c_path args.opened_path) (savedata.take written)
      if written ≠ size then
        (w.eprint "count mismatch when saving file\n", c.TOXFILE_ERR_FWRITE)
      else
        (w, 0)

/-- `toxfile_encrypt`. -/
def toxfile_encrypt (c : Consts) (env : Env) (w : World) (tox : Tox) (args : Args) :
    World × Int :=
  let w := w.log Event.getpass
  toxfile_save_enc c env w tox (c_path args.opened_path) env.passphrase

/-! ## Dispatch -/

/-- `print_tox_fields`. -/
def print_tox_fields (c : Consts) (env : Env) (w : World) (tox : Tox) : World :=
  let w := w.log Event.print_tox_fields
  let tox_name := fill_buffer c.TOX_MAX_NAME_LENGTH tox.name
  let tox_status := fill_buffer c.TOX_MAX_STATUS_MESSAGE_LENGTH tox.status_message
  let tox_addr := fill_buffer c.TOX_ADDRESS_SIZE tox.address
  let w := w.print "Basic Info:\n"
  let w := w.print " Address:    "
  let w := w.print (print_bytes tox_addr)
  let w := w.print "\n"
  let w := w.print (" Tox Name:   " ++ c_string tox_name env.beyond ++ "\n")
  let w := w.print (" Tox Status: " ++ c_string tox_status env.beyond ++ "\n")
  let tox_pub_key := fill_buffer c.TOX_PUBLIC_KEY_SIZE tox.public_key
  let w := w.print "Crypto Info:\n"
  let w := w.print " Public key:  "
  let w := w.print (print_bytes tox_pub_key)
  w.print "\n"

/-- `toxfile_do`.  The values `toxfile_decrypt` and `toxfile_encrypt` return are
dropped, as in the source. -/
def toxfile_do (c : Consts) (env : Env) (w : World) (tox : Tox) (args : Args) : World :=
  let w :=
    if args.operation ≠ TOXFILE_OP_NONE then
      match args.operation with
      | TOXFILE_OP_DECRYPT => (toxfile_decrypt c env w tox args).1
      | TOXFILE_OP_ENCRYPT => (toxfile_encrypt c env w tox args).1
      | _ => w
    else w
  if args.exclusive_print ≠ TOXFILE_EXPRINT_NONE then
    match args.exclusive_print with
    | TOXFILE_EXPRINT_ADDRESS =>
      let tox_addr := fill_buffer c.TOX_ADDRESS_SIZE tox.address
      (w.print (print_bytes tox_addr)).print "\n"
    | TOXFILE_EXPRINT_NAME =>
      let tox_name := fill_buffer c.TOX_MAX_NAME_LENGTH tox.name
      w.print (c_string tox_name env.beyond ++ "\n")
    | TOXFILE_EXPRINT_PUBKEY =>
      let tox_pub_key := fill_buffer c.TOX_PUBLIC_KEY_SIZE tox.public_key
      (w.print (print_bytes tox_pub_key)).print "\n"
    | TOXFILE_EXPRINT_SECKEY =>
      let tox_secret_key := fill_buffer c.TOX_SECRET_KEY_SIZE tox.secret_key
      (w.print (print_bytes tox_secret_key)).print "\n"
    | TOXFILE_EXPRINT_STATUS =>
      let tox_status := fill_buffer c.TOX_MAX_STATUS_MESSAGE_LENGTH tox.status_message
      w.print (c_string tox_status env.beyond ++ "\n")
    | TOXFILE_EXPRINT_NONE => w
  else if args.exclusive_print = TOXFILE_EXPRINT_NONE ∧ args.operation = TOXFILE_OP_NONE then
    print_tox_fields c env w tox
  else w

/-! ## Creating a profile -/

/-- Modelled from the spec: the helper `prompt_yn` (declared in `io.h`) is not
among the sources.  The spec gives the prompt three outcomes: an I/O failure,
which the caller tells by a negative result; a "no", which is also the answer
on empty input and aborts the creation flow, so it is the positive result the
caller returns on; and a "yes", the zero result on which the caller goes on. -/
def prompt_yn (r : Reply) : Int :=
  match r with
  | Reply.ioError => -1
  | Reply.yes => 0
  | Reply.no => 1
  | Reply.empty => 1

/-- `S_ISREG`. -/
def S_ISREG (e : Entry) : Bool :=
  match e with
  | Entry.regular _ => true
  | Entry.nonRegular => false

/-- The part of `toxfile_new` after the existence check: create, save, release. -/
def toxfile_new_create (c : Consts) (env : Env) (w : World) (new_path : String) :
    World × Outcome Unit :=
  let w := w.log Event.tox_new
  match env.tox_new with
  | NewResult.error code =>
    (w.eprint ("tox_new error: " ++ toString code ++ "\n"), Outcome.exit EXIT_FAILURE)
  | NewResult.ok tox =>
    match toxfile_save c env w tox new_path with
    | (w, Outcome.killed) => (w, Outcome.killed)
    | (w, Outcome.exit status) => (w, Outcome.exit status)
    | (w, Outcome.ret result) =>
      if result ≠ 0 then (w, Outcome.exit EXIT_FAILURE)
      else (w.log Event.tox_kill, Outcome.ret ())

/-- `toxfile_new`. -/
def toxfile_new (c : Consts) (env : Env) (w : World) (args : Args) : World × Outcome Unit :=
  let new_path := c_path args.new_path
  match w.stat new_path with
  | some st =>
    if !S_ISREG st then
      (w.eprint "file exists and is not regular file\n", Outcome.exit EXIT_FAILURE)
    else
      let w := w.log Event.prompt_yn
      let overwrite := prompt_yn env.reply
      if overwrite < 0 then
        (w.eprint "error prompting for input\n", Outcome.exit EXIT_FAILURE)
      else if overwrite ≠ 0 then
        (w, Outcome.ret ())
      else
        toxfile_new_create c env w new_path
  | none => toxfile_new_create c env w new_path

/-! ## The argument interpreter

`getopt_long` belongs to the C library.  Its scan of the argument vector is
modelled after the GNU implementation run without `POSIXLY_CORRECT`: elements
that are not options are skipped (and end up after the options), `--` ends the
scan, a short-option cluster is read letter by letter, a long option matches by
exact name or by an unambiguous abbreviation, and, the option text starting with
a colon, a missing argument is reported as `:` and nothing is printed. -/

/-- The `has_arg` field of a `struct option`. -/
inductive HasArg where
  | no_argument
  | required_argument
deriving DecidableEq, Repr

/-- An entry of the long option table (`flag` is always 0). -/
structure LongOption where
  name : String
  has_arg : HasArg
  val : Char
deriving DecidableEq, Repr

open HasArg

/-- The short option text of `parse_arguments`. -/
def argstr : String := ":t:adekmN:sxh?v"

/-- The long option table of `parse_arguments`. -/
def long_options : List LongOption :=
  [ ⟨"decrypt", no_argument, 'd'⟩,
    ⟨"encrypt", no_argument, 'e'⟩,
    ⟨"new", required_argument, 'N'⟩,
    ⟨"print-address", no_argument, 'a'⟩,
    ⟨"print-name", no_argument, 'm'⟩,
    ⟨"print-secret-key", no_argument, 'x'⟩,
    ⟨"print-public-key", no_argument, 'k'⟩,
    ⟨"print-status-message", no_argument, 's'⟩,
    ⟨"print-status", no_argument, 'u'⟩,
    ⟨"set-address", required_argument, 'A'⟩,
    ⟨"set-name", required_argument, 'M'⟩,
    ⟨"set-secret-key", required_argument, 'X'⟩,
    ⟨"set-public-key", required_argument, 'K'⟩,
    ⟨"set-status", required_argument, 'U'⟩,
    ⟨"set-status-message", required_argument, 'S'⟩,
    ⟨"help", no_argument, 'h'⟩,
    ⟨"version", no_argument, 'v'⟩ ]

/-- One return of `getopt_long`: the value returned and `optarg`. -/
structure GetoptResult where
  c : Char
  optarg : Option String
deriving DecidableEq, Repr

/-- Look a letter up in the short option text: `none` when it is not an option
letter, otherwise whether it takes an argument. -/
def short_lookup (optstring : List Char) (ch : Char) : Option Bool :=
  if ch = ':' ∨ ch = ';' then none
  else
    match optstring.dropWhile (fun x => x ≠ ch) with
    | [] => none
    | _ :: rest => some (rest.head? = some ':')

/-- Read a cluster of short options.  Returns what `getopt_long` reports for it
and, when the last letter still waits for its argument in the next element,
that letter. -/
def scan_short (optstring : List Char) : List Char → List GetoptResult × Option Char
  | [] => ([], none)
  | ch :: cs =>
    match short_lookup optstring ch with
    | none =>
      let (rs, pending) := scan_short optstring cs
      (⟨'?', none⟩ :: rs, pending)
    | some false =>
      let (rs, pending) := scan_short optstring cs
      (⟨ch, none⟩ :: rs, pending)
    | some true =>
      match cs with
      | [] => ([], some ch)
      | _ :: _ => ([⟨ch, some (String.mk cs)⟩], none)

/-- Read a long option (the text after `--`).  Returns what `getopt_long`
reports for it or, when the option still waits for its argument in the next
element, its value. -/
def scan_long (table : List LongOption) (body : List Char) : Option GetoptResult × Option Char :=
  let name := body.takeWhile (fun x => x ≠ '=')
  let value : Option String :=
    match body.dropWhile (fun x => x ≠ '=') with
    | [] => none
    | _ :: v => some (String.mk v)
  let exact := table.filter (fun o => o.name.data = name)
  let candidates :=
    if exact ≠ [] then exact.take 1
    else table.filter (fun o => name.isPrefixOf o.name.data)
  match candidates with
  | [o] =>
    match o.has_arg, value with
    | no_argument, none => (some ⟨o.val, none⟩, none)
    | no_argument, some _ => (some ⟨'?', none⟩, none)
    | required_argument, some v => (some ⟨o.val, some v⟩, none)
    | required_argument, none => (none, some o.val)
  | _ => (some ⟨'?', none⟩, none)

/-- The whole scan of the arguments after `argv[0]`: every return of
`getopt_long` before `-1`, in order, and the elements left from `optind` on.
`pending` is an option waiting for its argument. -/
def getopt_scan : Option Char → List String → List GetoptResult × List String
  | none, [] => ([], [])
  | some _, [] => ([⟨':', none⟩], [])
  | some ch, a :: rest =>
    let (rs, pos) := getopt_scan none rest
    (⟨ch, some a⟩ :: rs, pos)
  | none, a :: rest =>
    match a.data with
    | ['-', '-'] => ([], rest)
    | '-' :: '-' :: body =>
      let (r, pending) := scan_long long_options body
      let (rs, pos) := getopt_scan pending rest
      (r.toList ++ rs, pos)
    | '-' :: ch :: cs =>
      let (r, pending) := scan_short argstr.data (ch :: cs)
      let (rs, pos) := getopt_scan pending rest
      (r ++ rs, pos)
    | _ =>
      let (rs, pos) := getopt_scan none rest
      (rs, a :: pos)

/-- The body of the `switch(c)` in `parse_arguments`. -/
def parse_option (args : Args) (r : GetoptResult) : Args :=
  if r.c = 'a' then { args with exclusive_print := TOXFILE_EXPRINT_ADDRESS }
  else if r.c = 'd' then { args with operation := TOXFILE_OP_DECRYPT }
  else if r.c = 'e' then { args with operation := TOXFILE_OP_ENCRYPT }
  else if r.c = 'm' then { args with exclusive_print := TOXFILE_EXPRINT_NAME }
  else if r.c = 'N' then { args with operation := TOXFILE_OP_NEW, new_path := r.optarg }
  else if r.c = 'k' then { args with exclusive_print := TOXFILE_EXPRINT_PUBKEY }
  else if r.c = 'x' then { args with exclusive_print := TOXFILE_EXPRINT_SECKEY }
  else if r.c = 's' then { args with exclusive_print := TOXFILE_EXPRINT_STATUS }
  else if r.c = 'h' ∨ r.c = '?' then { args with print_help := true }
  else if r.c = 'v' then { args with print_version := true }
  else args

/-- The `while` loop of `parse_arguments` over the returns of `getopt_long`. -/
def parse_options (args : Args) (rs : List GetoptResult) : Args :=
  rs.foldl parse_option args

/-- The argument record when `parse_arguments` reaches its help check: the
options applied in order, then the first remaining element as `savepath`. -/
def request_of (args : Args) (rs : List GetoptResult) (pos : List String) : Args :=
  let args := parse_options args rs
  match pos with
  | [] => args
  | p :: _ => { args with savepath := some p }

/-- The argument record `parse_arguments` builds from `argv`. -/
def parse_request (args : Args) (argv : List String) : Args :=
  request_of args (getopt_scan none argv.tail).1 (getopt_scan none argv.tail).2

/-- `print_help`. -/
def print_help (w : World) : World :=
  let w := w.print "toxfile - general purpose utility for tox files\n"
  let w := w.print "usage: toxfile [options] <file>\n"
  let w := w.print " -a, --print-address     print tox address\n"
  let w := w.print " -d, --decrypt           decrypt tox save file\n"
  let w := w.print " -e, --encrypt           encrypt tox save file\n"
  let w := w.print " -k, --print-public-key  print tox public key\n"
  let w := w.print " -m, --print-name        print tox name\n"
  let w := w.print " -N, --new=PATH          create a new tox file\n"
  let w := w.print " -s, --print-status-message    print tox status message\n"
  let w := w.print " -x, --print-secret-key  print tox secret key \n"
  let w := w.print " -h, -?, --help          print help/usage message (this)\n"
  w.print " -v, --version           print toxfile version\n"

/-- `print_version`. -/
def print_version (c : Consts) (w : World) : World :=
  w.print ("toxfile v" ++ c.TOXFILE_PROJ_VERSION ++ "\n")

/-- `parse_arguments`: it returns the argument record or ends the process. -/
def parse_arguments (c : Consts) (env : Env) (w : World) (args : Args) (argv : List String) :
    World × Outcome Args :=
  let args := parse_request args argv
  if args.print_help then
    (print_help w, Outcome.exit EXIT_SUCCESS)
  else if args.print_version then
    (print_version c w, Outcome.exit EXIT_SUCCESS)
  else if args.operation = TOXFILE_OP_NEW then
    match toxfile_new c env w args with
    | (w, Outcome.exit status) => (w, Outcome.exit status)
    | (w, Outcome.killed) => (w, Outcome.killed)
    | (w, Outcome.ret _) => (w, Outcome.exit EXIT_SUCCESS)
  else
    (w, Outcome.ret args)

/-! ## Loading and `main` -/

/-- `toxfile_open_with`. -/
def toxfile_open_with (c : Consts) (env : Env) (w : World) (args : Args) :
    World × Outcome Unit :=
  match env.toxfile_open args.savepath with
  | OpenResult.error code =>
    (w.eprint ("toxfile_open error: " ++ toString code ++ "\n"), Outcome.exit EXIT_FAILURE)
  | OpenResult.ok tox =>
    let args := { args with was_encrypted := false, opened_path := args.savepath }
    let w := toxfile_do c env w tox args
    (w.log Event.tox_kill, Outcome.ret ())
  | OpenResult.ok_encrypted tox =>
    let args := { args with was_encrypted := true, opened_path := args.savepath }
    let w := toxfile_do c env w tox args
    (w.log Event.tox_kill, Outcome.ret ())

/-- `main`: the final state and the exit status of the process. -/
def main (c : Consts) (env : Env) (w : World) (argv : List String) : World × Int :=
  match parse_arguments c env w INIT_TOXFILE_ARGS argv with
  | (w, Outcome.exit status) => (w, status)
  | (w, Outcome.killed) => (w, KILLED_STATUS)
  | (w, Outcome.ret targs) =>
    match toxfile_open_with c env w targs with
    | (w, Outcome.exit status) => (w, status)
    | (w, Outcome.killed) => (w, KILLED_STATUS)
    | (w, Outcome.ret _) => (w, EXIT_SUCCESS)

/-! ## Sample inputs -/

/-- A handle as the engine would report it for a small profile. -/
def sampleTox : Tox where
  savedata := [1, 2, 3, 4, 5, 6, 7, 8]
  address := List.replicate 38 0xAB
  name := [0x62, 0x6F, 0x62]
  status_message := [0x68, 0x69]
  public_key := List.replicate 32 0x0C
  secret_key := List.replicate 32 0x5E

/-- A handle whose engine-reported save size is the largest 32-bit value. -/
def hugeTox : Tox := { sampleTox with savedata := List.replicate 4294967295 0 }

/-- A plaintext profile at `save.tox`, a directory at `dir`, empty streams. -/
def sampleWorld : World where
  fs := [("save.tox", Entry.regular [1, 2, 3, 4, 5, 6, 7, 8]), ("dir", Entry.nonRegular)]
  stdout := ""
  stderr := ""
  trace := []

/-- An environment in which every call succeeds: files open, writes are
complete, the engine encrypts (prefixing the overhead bytes), the loader
reports an encrypted profile, the operator confirms. -/
def acceptingEnv : Env where
  fopen_ok := fun _ => true
  fwrite_cap := 2 ^ 64
  flush_cap := 2 ^ 64
  stack_limit := 8388608
  reply := Reply.yes
  passphrase := [0x70, 0x77, 0]
  tox_pass_encrypt := fun data _ => EncryptResult.ok (List.replicate 80 0xEE ++ data)
  tox_new := NewResult.ok sampleTox
  toxfile_open := fun _ => OpenResult.ok_encrypted sampleTox
  beyond := [0x21, 0x21, 0]

/-- As `acceptingEnv`, but no file can be opened for writing. -/
def noOpenEnv : Env := { acceptingEnv with fopen_ok := fun _ => false }

/-- As `acceptingEnv`, but the engine rejects every encryption. -/
def rejectingEnv : Env :=
  { acceptingEnv with tox_pass_encrypt := fun _ _ => EncryptResult.error 2 }

/-- As `acceptingEnv`, but a write stops after three bytes. -/
def shortWriteEnv : Env := { acceptingEnv with fwrite_cap := 3 }

/-- A handle whose name fills the name buffer completely, with no NUL. -/
def fullNameTox : Tox := { sampleTox with name := List.replicate 128 0x41 }

/-- The argument record `toxfile_do` receives for `toxfile -e save.tox` once
the encrypted profile is loaded. -/
def encryptArgs : Args :=
  { INIT_TOXFILE_ARGS with
    operation := TOXFILE_OP_ENCRYPT
    savepath := some "save.tox"
    opened_path := some "save.tox"
    was_encrypted := true }

/-- The argument record `toxfile_do` receives for `toxfile -d save.tox` once
the encrypted profile is loaded. -/
def decryptArgs : Args :=
  { INIT_TOXFILE_ARGS with
    operation := TOXFILE_OP_DECRYPT
    savepath := some "save.tox"
    opened_path := some "save.tox"
    was_encrypted := true }

/-- As `acceptingEnv`, but the operator answers the prompt with "n". -/
def decliningEnv : Env := { acceptingEnv with reply := Reply.no }

/-- The argument record for a profile that was loaded as plaintext. -/
def plainArgs : Args :=
  { INIT_TOXFILE_ARGS with
    savepath := some "save.tox"
    opened_path := some "save.tox"
    was_encrypted := false }

/-- The argument record for `toxfile -m save.tox` on a plaintext profile. -/
def printNameArgs : Args := { plainArgs with exclusive_print := TOXFILE_EXPRINT_NAME }

/-! ## Observations used in the statements -/

/-- Events `w2` has after those of `w1`. -/
def new_events (w1 w2 : World) : List Event := w2.trace.drop w1.trace.length

/-- The text `printf("%s")` reads from the zero-initialised name buffer. -/
def name_text (c : Consts) (env : Env) (tox : Tox) : String :=
  c_string (fill_buffer c.TOX_MAX_NAME_LENGTH tox.name) env.beyond

/-- The text `printf("%s")` reads from the zero-initialised status buffer. -/
def status_text (c : Consts) (env : Env) (tox : Tox) : String :=
  c_string (fill_buffer c.TOX_MAX_STATUS_MESSAGE_LENGTH tox.status_message) env.beyond

/-- The rendering of one exclusively printed field in the words of the
specification: hexadecimal for the address and the keys, the text of the field
for the name and the status message. -/
def exclusive_rendering (tox : Tox) : ExclusivePrint → String
  | TOXFILE_EXPRINT_NONE => ""
  | TOXFILE_EXPRINT_ADDRESS => hex_render tox.address
  | TOXFILE_EXPRINT_NAME => c_text tox.name
  | TOXFILE_EXPRINT_PUBKEY => hex_render tox.public_key
  | TOXFILE_EXPRINT_SECKEY => hex_render tox.secret_key
  | TOXFILE_EXPRINT_STATUS => c_text tox.status_message

/-! ## Hex rendering -/

set_option maxRecDepth 1000000 in
/-- For a byte, `%02X` gives the two digits of the specification. -/
theorem printf_02X_byte : ∀ b : Byte, printf_02X b.val = hex_pair b := by decide

theorem foldl_printf_02X (data : List Byte) (init : String) :
    data.foldl (fun out b => out ++ printf_02X b.val) init = init ++ hex_render data := by
  induction data generalizing init with
  | nil => simp [hex_render]
  | cons b bs ih =>
    simp only [List.foldl_cons, hex_render]
    rw [ih, printf_02X_byte, String.append_assoc]

theorem hex_render_length (data : List Byte) : (hex_render data).length = 2 * data.length := by
  induction data with
  | nil => simp [hex_render]
  | cons b bs ih =>
    simp only [hex_render, String.length_append, ih, List.length_cons]
    simp [hex_pair, String.length]
    omega

theorem print_bytes_eq (data : List Byte) : print_bytes data = hex_render data := by
  unfold print_bytes
  rw [foldl_printf_02X]
  simp

/-- C9: `print_bytes` emits, for a byte sequence of length `n`, the renderings of
its bytes as two upper-case hexadecimal digits each (high nibble first), in
array order and with nothing in between, so `2 * n` characters; for
`[0x00, 0xAB, 0xFF]` it emits `00ABFF`. -/
theorem print_bytes_two_upper_hex_digits_per_byte (data : List Byte) :
    print_bytes data = hex_render data ∧
    (print_bytes data).length = 2 * data.length ∧
    print_bytes [0x00, 0xAB, 0xFF] = "00ABFF" := by
  refine ⟨print_bytes_eq data, ?_, by decide⟩
  rw [print_bytes_eq, hex_render_length]


/-! ## Buffers -/

theorem fill_buffer_of_length_eq (n : Nat) (src : List Byte) (h : src.length = n) :
    fill_buffer n src = src := by
  simp [fill_buffer, h]

theorem takeWhile_append_zero_cons (l rest : List Byte) :
    (l ++ (0 : Byte) :: rest).takeWhile (fun b => b ≠ 0) =
      l.takeWhile (fun b => b ≠ 0) := by
  induction l with
  | nil => simp [List.takeWhile]
  | cons a l ih =>
    by_cases ha : a = 0
    · simp [List.takeWhile, ha]
    · simpa [List.takeWhile, ha] using ih

/-- A text shorter than its zero-initialised buffer is printed as it is, up to
its first NUL, whatever follows the buffer. -/
theorem c_string_fill_buffer (n : Nat) (src beyond : List Byte) (h : src.length < n) :
    c_string (fill_buffer n src) beyond = c_text src := by
  unfold c_string c_text fill_buffer
  rw [List.take_of_length_le (by simp; omega)]
  obtain ⟨k, hk⟩ : ∃ k, n - src.length = k + 1 := ⟨n - src.length - 1, by omega⟩
  rw [hk, List.replicate_succ, List.append_assoc, List.cons_append,
    takeWhile_append_zero_cons]

/-! ## Saving -/

/-- C2: when the argument record says the loaded file was not encrypted,
`toxfile_decrypt` returns `TOXFILE_ERR_ALREADY_ENC` (non-zero whenever that header
constant is) and does nothing but print a diagnostic: no event is added to the
trace, so no file is opened and nothing is written, and the file system, the
entry at `opened_path` included, is as before. -/
theorem toxfile_decrypt_already_decrypted (c : Consts) (env : Env) (w : World) (tox : Tox)
    (args : Args) (hc : c.TOXFILE_ERR_ALREADY_ENC ≠ 0) (h : args.was_encrypted = false) :
    (toxfile_decrypt c env w tox args).2 = c.TOXFILE_ERR_ALREADY_ENC ∧
    (toxfile_decrypt c env w tox args).2 ≠ 0 ∧
    (toxfile_decrypt c env w tox args).1.trace = w.trace ∧
    (toxfile_decrypt c env w tox args).1.fs = w.fs ∧
    (toxfile_decrypt c env w tox args).1.stat (c_path args.opened_path) =
      w.stat (c_path args.opened_path) := by
  simp [toxfile_decrypt, h, hc, World.eprint, World.stat]

theorem toxfile_save_enc_rejected (c : Consts) (env : Env) (w : World) (tox : Tox)
    (path : String) (pass : List Byte) (code : Int)
    (ho : env.fopen_ok path = true)
    (hrej : env.tox_pass_encrypt
        (fill_buffer (tox_get_savedata_size tox % 2 ^ 32) tox.savedata) (c_strlen_bytes pass) =
      EncryptResult.error code) :
    toxfile_save_enc c env w tox path pass =
      ({ fs := (path, Entry.regular []) :: (path, Entry.regular []) :: w.fs,
         stdout := w.stdout,
         stderr := w.stderr ++ ("tox_pass_encrypt error: " ++ toString code ++ "\n"),
         trace := w.trace ++ [Event.fopen path true,
           Event.malloc (tox_get_savedata_size tox % 2 ^ 32),
           Event.malloc (encdata_size c (tox_get_savedata_size tox % 2 ^ 32)),
           Event.tox_pass_encrypt] },
        c.TOXFILE_ERR_ENCRYPTED_SAVE) := by
  simp only [toxfile_save_enc, fopen_w, ho, hrej, fclose, World.log, World.eprint,
    World.append, World.stat, if_true, List.lookup_cons, beq_self_eq_true, List.take_nil,
    List.append_assoc, List.singleton_append, List.cons_append, List.nil_append]

/-- C10: when the file opens and the engine rejects the encryption,
`toxfile_save_enc` returns `TOXFILE_ERR_ENCRYPTED_SAVE`; the file was opened
(and truncated) before the engine was asked, no write follows, and the path
names an empty file whatever it held before. -/
theorem toxfile_save_enc_rejection_leaves_empty_file (c : Consts) (env : Env) (w : World)
    (tox : Tox) (path : String) (pass : List Byte) (code : Int)
    (ho : env.fopen_ok path = true)
    (hrej : env.tox_pass_encrypt
        (fill_buffer (tox_get_savedata_size tox % 2 ^ 32) tox.savedata) (c_strlen_bytes pass) =
      EncryptResult.error code) :
    (toxfile_save_enc c env w tox path pass).2 = c.TOXFILE_ERR_ENCRYPTED_SAVE ∧
    (toxfile_save_enc c env w tox path pass).1.trace =
      w.trace ++ [Event.fopen path true,
        Event.malloc (tox_get_savedata_size tox % 2 ^ 32),
        Event.malloc (encdata_size c (tox_get_savedata_size tox % 2 ^ 32)),
        Event.tox_pass_encrypt] ∧
    (toxfile_save_enc c env w tox path pass).1.stat path = some (Entry.regular []) := by
  rw [toxfile_save_enc_rejected c env w tox path pass code ho hrej]
  simp [World.stat]

theorem toxfile_save_enc_accepted (c : Consts) (env : Env) (w : World) (tox : Tox)
    (path : String) (pass : List Byte) (ciphertext : List Byte)
    (ho : env.fopen_ok path = true)
    (hacc : env.tox_pass_encrypt
        (fill_buffer (tox_get_savedata_size tox % 2 ^ 32) tox.savedata) (c_strlen_bytes pass) =
      EncryptResult.ok ciphertext) :
    (toxfile_save_enc c env w tox path pass).1.trace =
      w.trace ++ [Event.fopen path true,
        Event.malloc (tox_get_savedata_size tox % 2 ^ 32),
        Event.malloc (encdata_size c (tox_get_savedata_size tox % 2 ^ 32)),
        Event.tox_pass_encrypt,
        Event.fwrite path (encdata_size c (tox_get_savedata_size tox % 2 ^ 32))
          (min (encdata_size c (tox_get_savedata_size tox % 2 ^ 32)) env.fwrite_cap)] ∧
    (toxfile_save_enc c env w tox path pass).2 =
      if min (encdata_size c (tox_get_savedata_size tox % 2 ^ 32)) env.fwrite_cap ≠
          encdata_size c (tox_get_savedata_size tox % 2 ^ 32)
      then c.TOXFILE_ERR_FWRITE else 0 := by
  simp only [toxfile_save_enc, fopen_w, ho, hacc, fwrite, fclose, World.log, World.eprint,
    World.append, World.stat, if_true, List.lookup_cons, beq_self_eq_true, List.nil_append,
    List.append_assoc, List.singleton_append, List.cons_append]
  split_ifs <;> exact ⟨rfl, rfl⟩

/-- Without wrap-around the ciphertext size is the sum of the plaintext size and
the overhead. -/
theorem encdata_size_of_lt (c : Consts) (data_size : Nat)
    (h : data_size + c.TOX_PASS_ENCRYPTION_EXTRA_LENGTH < 2 ^ 32) :
    encdata_size c data_size = data_size + c.TOX_PASS_ENCRYPTION_EXTRA_LENGTH :=
  Nat.mod_eq_of_lt h

theorem hugeTox_size : tox_get_savedata_size hugeTox = 4294967295 := by
  unfold tox_get_savedata_size hugeTox
  exact List.length_replicate _ _

/-- C4, evaluated where it fails: for an engine-reported save size of
`4294967295` and the overhead `80`, whose sum is `4294967375`, `toxfile_save_enc`
allocates and asks to write `79` bytes, and returns 0 once those are written. -/
theorem toxfile_save_enc_size_wraps :
    tox_get_savedata_size hugeTox = 4294967295 ∧
    tox_get_savedata_size hugeTox + toxConsts.TOX_PASS_ENCRYPTION_EXTRA_LENGTH = 4294967375 ∧
    (toxfile_save_enc toxConsts acceptingEnv sampleWorld hugeTox "save.tox" []).1.trace =
      [Event.fopen "save.tox" true, Event.malloc 4294967295, Event.malloc 79,
        Event.tox_pass_encrypt, Event.fwrite "save.tox" 79 79] ∧
    (toxfile_save_enc toxConsts acceptingEnv sampleWorld hugeTox "save.tox" []).2 = 0 := by
  have h := toxfile_save_enc_accepted toxConsts acceptingEnv sampleWorld hugeTox "save.tox" []
    _ rfl rfl
  rw [hugeTox_size] at h
  refine ⟨hugeTox_size, by rw [hugeTox_size]; rfl, ?_, ?_⟩
  · rw [h.1]; rfl
  · rw [h.2]; rfl

/-- Once the arguments are parsed and the profile is loaded, `main` ends with
`EXIT_SUCCESS` whatever the operation did. -/
theorem main_exit_status_once_loaded (c : Consts) (env : Env) (w w1 : World)
    (argv : List String) (args : Args)
    (hp : parse_arguments c env w INIT_TOXFILE_ARGS argv = (w1, Outcome.ret args))
    (hopen : ∀ code, env.toxfile_open args.savepath ≠ OpenResult.error code) :
    (main c env w argv).2 = EXIT_SUCCESS := by
  unfold main
  rw [hp]
  cases ho : env.toxfile_open args.savepath with
  | ok tox => simp [toxfile_open_with, ho]
  | ok_encrypted tox => simp [toxfile_open_with, ho]
  | error code => exact absurd ho (hopen code)

set_option maxRecDepth 100000 in
/-- C1, evaluated where it fails: with a profile that loads, an encryption that
cannot open the file, an encryption the engine rejects and a decryption cut
short by a partial write each make the operation return its error code, and
the process exits with status 0 every time. -/
theorem main_exit_status_ignores_operation_failure :
    (toxfile_encrypt toxConsts noOpenEnv sampleWorld sampleTox encryptArgs).2 =
      toxConsts.TOXFILE_ERR_FOPEN ∧
    (main toxConsts noOpenEnv sampleWorld ["toxfile", "-e", "save.tox"]).2 = 0 ∧
    (toxfile_encrypt toxConsts rejectingEnv sampleWorld sampleTox encryptArgs).2 =
      toxConsts.TOXFILE_ERR_ENCRYPTED_SAVE ∧
    (main toxConsts rejectingEnv sampleWorld ["toxfile", "-e", "save.tox"]).2 = 0 ∧
    (toxfile_decrypt toxConsts shortWriteEnv sampleWorld sampleTox decryptArgs).2 =
      toxConsts.TOXFILE_ERR_FWRITE ∧
    (main toxConsts shortWriteEnv sampleWorld ["toxfile", "-d", "save.tox"]).2 = 0 ∧
    (main toxConsts noOpenEnv sampleWorld ["toxfile", "-e", "save.tox"]).1.stderr =
      "error opening file\n" ∧
    (main toxConsts rejectingEnv sampleWorld ["toxfile", "-e", "save.tox"]).1.stderr =
      "tox_pass_encrypt error: 2\n" ∧
    (main toxConsts shortWriteEnv sampleWorld ["toxfile", "-d", "save.tox"]).1.stderr =
      "count mismatch when saving file\n" ∧
    toxConsts.TOXFILE_ERR_FOPEN ≠ 0 ∧ toxConsts.TOXFILE_ERR_ENCRYPTED_SAVE ≠ 0 ∧
    toxConsts.TOXFILE_ERR_FWRITE ≠ 0 := by
  decide

/-! ## Dispatch -/

theorem World.print_print (w : World) (a b : String) :
    (w.print a).print b = w.print (a ++ b) := by
  simp [World.print, String.append_assoc]

/-- With no operation and an exclusive print requested, `toxfile_do` on a loaded
handle whose name and status message leave room for the NUL in their buffers
changes nothing but standard output, to which it appends exactly the rendering
of that one field and a newline. -/
theorem toxfile_do_exclusive_print_terminated (c : Consts) (env : Env) (w : World)
    (tox : Tox) (args : Args) (hL : tox.Loaded c) (hT : tox.TextsTerminated c)
    (hop : args.operation = TOXFILE_OP_NONE)
    (hex : args.exclusive_print ≠ TOXFILE_EXPRINT_NONE) :
    toxfile_do c env w tox args =
      w.print (exclusive_rendering tox args.exclusive_print ++ "\n") := by
  obtain ⟨ha, hp, hs, -, -, -⟩ := hL
  obtain ⟨hn, hm⟩ := hT
  unfold toxfile_do
  cases hx : args.exclusive_print with
  | TOXFILE_EXPRINT_NONE => exact absurd hx hex
  | TOXFILE_EXPRINT_ADDRESS =>
    simp [hop, exclusive_rendering, World.print_print, fill_buffer_of_length_eq _ _ ha,
      print_bytes_eq]
  | TOXFILE_EXPRINT_NAME =>
    simp [hop, exclusive_rendering, c_string_fill_buffer _ _ _ hn]
  | TOXFILE_EXPRINT_PUBKEY =>
    simp [hop, exclusive_rendering, World.print_print, fill_buffer_of_length_eq _ _ hp,
      print_bytes_eq]
  | TOXFILE_EXPRINT_SECKEY =>
    simp [hop, exclusive_rendering, World.print_print, fill_buffer_of_length_eq _ _ hs,
      print_bytes_eq]
  | TOXFILE_EXPRINT_STATUS =>
    simp [hop, exclusive_rendering, c_string_fill_buffer _ _ _ hm]

set_option maxRecDepth 100000 in
/-- C7, evaluated where it fails: for a loaded handle whose name has the full
`TOX_MAX_NAME_LENGTH` bytes, none of them NUL, `toxfile -m` prints the name, then
the bytes that follow the name buffer in memory (here `!!`), then the newline:
the zero-initialised buffer has no room left for the NUL that ends the text. -/
theorem toxfile_do_prints_past_full_name_buffer :
    fullNameTox.Loaded toxConsts ∧
    fullNameTox.name.length = toxConsts.TOX_MAX_NAME_LENGTH ∧
    printNameArgs.operation = TOXFILE_OP_NONE ∧
    printNameArgs.exclusive_print = TOXFILE_EXPRINT_NAME ∧
    (toxfile_do toxConsts acceptingEnv sampleWorld fullNameTox printNameArgs).stdout =
      exclusive_rendering fullNameTox TOXFILE_EXPRINT_NAME ++ "!!" ++ "\n" ∧
    (toxfile_do toxConsts acceptingEnv sampleWorld fullNameTox printNameArgs).stdout ≠
      exclusive_rendering fullNameTox TOXFILE_EXPRINT_NAME ++ "\n" := by
  decide

theorem print_tox_fields_eq (c : Consts) (env : Env) (w : World) (tox : Tox)
    (hL : tox.Loaded c) :
    print_tox_fields c env w tox =
      { w with
        stdout := w.stdout ++ ("Basic Info:\n" ++ " Address:    " ++ print_bytes tox.address ++ "\n" ++
          " Tox Name:   " ++ name_text c env tox ++ "\n" ++
          " Tox Status: " ++ status_text c env tox ++ "\n" ++
          "Crypto Info:\n" ++ " Public key:  " ++ print_bytes tox.public_key ++ "\n")
        trace := w.trace ++ [Event.print_tox_fields] } := by
  obtain ⟨ha, hp, -, -, -, -⟩ := hL
  simp only [print_tox_fields, World.print, World.log, fill_buffer_of_length_eq _ _ ha,
    fill_buffer_of_length_eq _ _ hp, name_text, status_text, String.append_assoc]

theorem toxfile_decrypt_trace (c : Consts) (env : Env) (w : World) (tox : Tox) (args : Args) :
    ∃ es, (toxfile_decrypt c env w tox args).1.trace = w.trace ++ es ∧
      Event.print_tox_fields ∉ es := by
  unfold toxfile_decrypt
  cases hw : args.was_encrypted
  · exact ⟨[], by simp [World.eprint], by simp⟩
  · cases ho : env.fopen_ok (c_path args.opened_path)
    · exact ⟨_, by simp [fopen_w, ho, World.log, World.eprint]; rfl, by simp⟩
    · simp only [fopen_w, ho, fwrite, fclose, World.log, World.eprint, World.append, World.stat,
        if_true, List.lookup_cons, beq_self_eq_true, List.append_assoc, Bool.not_true,
        Bool.false_eq_true, if_false]
      split_ifs <;> exact ⟨_, rfl, by simp⟩

theorem toxfile_encrypt_trace (c : Consts) (env : Env) (w : World) (tox : Tox) (args : Args) :
    ∃ es, (toxfile_encrypt c env w tox args).1.trace = w.trace ++ es ∧
      Event.print_tox_fields ∉ es := by
  unfold toxfile_encrypt toxfile_save_enc
  cases ho : env.fopen_ok (c_path args.opened_path)
  · exact ⟨_, by simp [fopen_w, ho, World.log, World.eprint]; rfl, by simp⟩
  · cases he : env.tox_pass_encrypt
        (fill_buffer (tox_get_savedata_size tox % 2 ^ 32) tox.savedata)
        (c_strlen_bytes env.passphrase)
    · simp only [fopen_w, ho, he, fwrite, fclose, World.log, World.eprint, World.append,
        World.stat, List.take_nil,
        if_true, List.lookup_cons, beq_self_eq_true, List.append_assoc]
      split_ifs <;> exact ⟨_, rfl, by simp⟩
    · simp only [fopen_w, ho, he, fwrite, fclose, World.log, World.eprint, World.append,
        World.stat, List.take_nil,
        if_true, List.lookup_cons, beq_self_eq_true, List.append_assoc]
      exact ⟨_, rfl, by simp⟩


theorem new_events_of_trace (w1 w2 : World) (es : List Event)
    (h : w2.trace = w1.trace ++ es) : new_events w1 w2 = es := by
  simp [new_events, h]

theorem toxfile_do_trace_other (c : Consts) (env : Env) (w : World) (tox : Tox) (args : Args)
    (h : ¬ (args.operation = TOXFILE_OP_NONE ∧ args.exclusive_print = TOXFILE_EXPRINT_NONE)) :
    ∃ es, (toxfile_do c env w tox args).trace = w.trace ++ es ∧
      Event.print_tox_fields ∉ es := by
  cases hop : args.operation <;> cases hex : args.exclusive_print <;>
    simp only [toxfile_do, hop, hex, World.print, ne_eq, not_true_eq_false, not_false_eq_true,
      if_true, if_false, reduceCtorEq, and_true, and_false, and_self] <;>
    first
      | exact toxfile_decrypt_trace c env w tox args
      | exact toxfile_encrypt_trace c env w tox args
      | (exfalso; apply h; constructor <;> assumption)
      | exact ⟨[], (List.append_nil _).symm, List.not_mem_nil _⟩

/-- C6: `toxfile_do` calls `print_tox_fields` if and only if the operation is
`TOXFILE_OP_NONE` and the exclusive print is `TOXFILE_EXPRINT_NONE`; when it does,
on a loaded handle, it appends to standard output the "Basic Info:" section
(address in hexadecimal, name, status) and then the "Crypto Info:" section
(public key in hexadecimal). -/
theorem toxfile_do_full_dump_iff (c : Consts) (env : Env) (w : World) (tox : Tox) (args : Args)
    (hL : tox.Loaded c) :
    (Event.print_tox_fields ∈ new_events w (toxfile_do c env w tox args) ↔
      args.operation = TOXFILE_OP_NONE ∧ args.exclusive_print = TOXFILE_EXPRINT_NONE) ∧
    (args.operation = TOXFILE_OP_NONE → args.exclusive_print = TOXFILE_EXPRINT_NONE →
      toxfile_do c env w tox args = print_tox_fields c env w tox ∧
      (toxfile_do c env w tox args).stdout =
        w.stdout ++ ("Basic Info:\n" ++ " Address:    " ++ print_bytes tox.address ++ "\n" ++
          " Tox Name:   " ++ name_text c env tox ++ "\n" ++
          " Tox Status: " ++ status_text c env tox ++ "\n" ++
          "Crypto Info:\n" ++ " Public key:  " ++ print_bytes tox.public_key ++ "\n")) := by
  have hdump : args.operation = TOXFILE_OP_NONE → args.exclusive_print = TOXFILE_EXPRINT_NONE →
      toxfile_do c env w tox args = print_tox_fields c env w tox := by
    intro hop hex
    simp [toxfile_do, hop, hex]
  refine ⟨⟨?_, ?_⟩, ?_⟩
  · intro hmem
    by_contra hne
    obtain ⟨es, hes, hnot⟩ := toxfile_do_trace_other c env w tox args hne
    rw [new_events_of_trace _ _ es hes] at hmem
    exact hnot hmem
  · rintro ⟨hop, hex⟩
    rw [hdump hop hex, print_tox_fields_eq c env w tox hL]
    rw [new_events_of_trace _ _ [Event.print_tox_fields] rfl]
    simp
  · intro hop hex
    rw [hdump hop hex, print_tox_fields_eq c env w tox hL]
    exact ⟨rfl, rfl⟩

/-! ## Creating a profile -/

theorem parse_arguments_new (c : Consts) (env : Env) (w : World) (a0 : Args)
    (argv : List String)
    (hh : (parse_request a0 argv).print_help = false)
    (hv : (parse_request a0 argv).print_version = false)
    (hop : (parse_request a0 argv).operation = TOXFILE_OP_NEW) :
    parse_arguments c env w a0 argv =
      match toxfile_new c env w (parse_request a0 argv) with
      | (w, Outcome.exit status) => (w, Outcome.exit status)
      | (w, Outcome.killed) => (w, Outcome.killed)
      | (w, Outcome.ret _) => (w, Outcome.exit EXIT_SUCCESS) := by
  simp [parse_arguments, hh, hv, hop]

/-- C5: when `parse_arguments` hands an argument vector with the new-profile
operation to `toxfile_new` and an entry already exists at `new_path`: an entry
that is not a regular file ends the process with status 1 without a prompt; a
failed prompt ends it with status 1; a "no" or an empty answer makes
`toxfile_new` return and the process exit with status 0; and unless the entry
is a regular file and the operator confirms, the file system is unchanged and
nothing but the prompt happens (no engine creation, no `toxfile_save`). -/
theorem toxfile_new_existing_entry (c : Consts) (env : Env) (w : World) (a0 : Args)
    (argv : List String) (st : Entry)
    (hh : (parse_request a0 argv).print_help = false)
    (hv : (parse_request a0 argv).print_version = false)
    (hop : (parse_request a0 argv).operation = TOXFILE_OP_NEW)
    (hst : w.stat (c_path (parse_request a0 argv).new_path) = some st) :
    (S_ISREG st = false →
      parse_arguments c env w a0 argv =
        (w.eprint "file exists and is not regular file\n", Outcome.exit 1)) ∧
    (S_ISREG st = true → env.reply = Reply.ioError →
      parse_arguments c env w a0 argv =
        ((w.log Event.prompt_yn).eprint "error prompting for input\n", Outcome.exit 1)) ∧
    (S_ISREG st = true → (env.reply = Reply.no ∨ env.reply = Reply.empty) →
      toxfile_new c env w (parse_request a0 argv) = (w.log Event.prompt_yn, Outcome.ret ()) ∧
      parse_arguments c env w a0 argv = (w.log Event.prompt_yn, Outcome.exit 0)) ∧
    (¬ (S_ISREG st = true ∧ env.reply = Reply.yes) →
      (toxfile_new c env w (parse_request a0 argv)).1.fs = w.fs ∧
      (new_events w (toxfile_new c env w (parse_request a0 argv)).1 = [] ∨
        new_events w (toxfile_new c env w (parse_request a0 argv)).1 = [Event.prompt_yn])) := by
  rw [parse_arguments_new c env w a0 argv hh hv hop]
  refine ⟨?_, ?_, ?_, ?_⟩
  · intro hreg
    simp [toxfile_new, hst, hreg, EXIT_FAILURE]
  · intro hreg hr
    simp [toxfile_new, hst, hreg, hr, prompt_yn, EXIT_FAILURE]
  · intro hreg hr
    rcases hr with hr | hr <;> simp [toxfile_new, hst, hreg, hr, prompt_yn, EXIT_SUCCESS]
  · intro hnot
    cases hreg : S_ISREG st
    · simp [toxfile_new, hst, hreg, World.eprint, new_events]
    · cases hr : env.reply
      · simp [toxfile_new, hst, hreg, hr, prompt_yn, World.eprint, World.log, new_events]
      · exact absurd ⟨hreg, hr⟩ hnot
      · simp [toxfile_new, hst, hreg, hr, prompt_yn, World.eprint, World.log, new_events]
      · simp [toxfile_new, hst, hreg, hr, prompt_yn, World.eprint, World.log, new_events]

theorem toxfile_new_existing_entry_witness :
    (parse_request INIT_TOXFILE_ARGS ["toxfile", "-N", "save.tox"]).print_help = false ∧
    (parse_request INIT_TOXFILE_ARGS ["toxfile", "-N", "save.tox"]).print_version = false ∧
    (parse_request INIT_TOXFILE_ARGS ["toxfile", "-N", "save.tox"]).operation =
      TOXFILE_OP_NEW ∧
    sampleWorld.stat (c_path (parse_request INIT_TOXFILE_ARGS
        ["toxfile", "-N", "save.tox"]).new_path) =
      some (Entry.regular [1, 2, 3, 4, 5, 6, 7, 8]) ∧
    parse_arguments toxConsts decliningEnv sampleWorld INIT_TOXFILE_ARGS
        ["toxfile", "-N", "save.tox"] =
      (sampleWorld.log Event.prompt_yn, Outcome.exit 0) :=
  ⟨by decide, by decide, by decide, by decide,
    ((toxfile_new_existing_entry toxConsts decliningEnv sampleWorld INIT_TOXFILE_ARGS
      ["toxfile", "-N", "save.tox"] (Entry.regular [1, 2, 3, 4, 5, 6, 7, 8])
      (by decide) (by decide) (by decide) (by decide)).2.2.1 rfl (Or.inl rfl)).2⟩

/-! ## The argument interpreter -/

theorem parse_option_help (a : Args) (r : GetoptResult) :
    parse_option { a with print_help := true } r =
      { parse_option a r with print_help := true } := by
  unfold parse_option
  by_cases h1 : r.c = 'a'
  · rw [if_pos h1, if_pos h1]
  rw [if_neg h1, if_neg h1]
  by_cases h2 : r.c = 'd'
  · rw [if_pos h2, if_pos h2]
  rw [if_neg h2, if_neg h2]
  by_cases h3 : r.c = 'e'
  · rw [if_pos h3, if_pos h3]
  rw [if_neg h3, if_neg h3]
  by_cases h4 : r.c = 'm'
  · rw [if_pos h4, if_pos h4]
  rw [if_neg h4, if_neg h4]
  by_cases h5 : r.c = 'N'
  · rw [if_pos h5, if_pos h5]
  rw [if_neg h5, if_neg h5]
  by_cases h6 : r.c = 'k'
  · rw [if_pos h6, if_pos h6]
  rw [if_neg h6, if_neg h6]
  by_cases h7 : r.c = 'x'
  · rw [if_pos h7, if_pos h7]
  rw [if_neg h7, if_neg h7]
  by_cases h8 : r.c = 's'
  · rw [if_pos h8, if_pos h8]
  rw [if_neg h8, if_neg h8]
  by_cases h9 : r.c = 'h' ∨ r.c = '?'
  · rw [if_pos h9, if_pos h9]
  rw [if_neg h9, if_neg h9]
  by_cases h10 : r.c = 'v'
  · rw [if_pos h10, if_pos h10]
  rw [if_neg h10, if_neg h10]

theorem parse_options_help (a : Args) (rs : List GetoptResult) :
    parse_options { a with print_help := true } rs =
      { parse_options a rs with print_help := true } := by
  induction rs generalizing a with
  | nil => rfl
  | cons r rs ih =>
    simp only [parse_options, List.foldl_cons] at ih ⊢
    rw [parse_option_help, ih]

theorem parse_options_unrecognized (a : Args) (pre post : List GetoptResult)
    (oa : Option String) :
    parse_options a (pre ++ ⟨'?', oa⟩ :: post) =
      { parse_options a (pre ++ post) with print_help := true } := by
  have hq : ∀ b : Args, parse_option b ⟨'?', oa⟩ = { b with print_help := true } := by
    intro b; simp [parse_option]
  have := parse_options_help (List.foldl parse_option a pre) post
  simp only [parse_options, List.foldl_append, List.foldl_cons, hq] at this ⊢
  exact this

theorem request_of_unrecognized (a : Args) (pre post : List GetoptResult)
    (oa : Option String) (pos : List String) :
    request_of a (pre ++ ⟨'?', oa⟩ :: post) pos =
      { request_of a (pre ++ post) pos with print_help := true } := by
  unfold request_of
  rw [parse_options_unrecognized]
  cases pos <;> rfl

/-- C8, amended: an unrecognized flag is not ignored.  Whenever `getopt_long`
reports one (return value `?`) while scanning the argument vector, the request
`parse_arguments` builds has `print_help` set and is otherwise the request built
from the same returns without that one, and `parse_arguments` prints the help
text and ends the process with status 0. -/
theorem parse_arguments_unrecognized_flag (c : Consts) (env : Env) (w : World) (a0 : Args)
    (argv : List String) (pre post : List GetoptResult) (oa : Option String)
    (pos : List String)
    (h : getopt_scan none argv.tail = (pre ++ ⟨'?', oa⟩ :: post, pos)) :
    parse_request a0 argv = { request_of a0 (pre ++ post) pos with print_help := true } ∧
    parse_arguments c env w a0 argv = (print_help w, Outcome.exit 0) := by
  have hreq : parse_request a0 argv =
      { request_of a0 (pre ++ post) pos with print_help := true } := by
    unfold parse_request
    rw [h]
    exact request_of_unrecognized a0 pre post oa pos
  refine ⟨hreq, ?_⟩
  unfold parse_arguments
  rw [hreq]
  simp [EXIT_SUCCESS]

theorem parse_arguments_unrecognized_flag_witness :
    getopt_scan none (["toxfile", "-a", "-z", "save.tox"] : List String).tail =
      ([⟨'a', none⟩] ++ ⟨'?', none⟩ :: [], ["save.tox"]) ∧
    parse_request INIT_TOXFILE_ARGS ["toxfile", "-a", "-z", "save.tox"] =
      { request_of INIT_TOXFILE_ARGS ([⟨'a', none⟩] ++ []) ["save.tox"] with
        print_help := true } ∧
    parse_arguments toxConsts acceptingEnv sampleWorld INIT_TOXFILE_ARGS
        ["toxfile", "-a", "-z", "save.tox"] =
      (print_help sampleWorld, Outcome.exit 0) :=
  ⟨by decide,
    parse_arguments_unrecognized_flag toxConsts acceptingEnv sampleWorld INIT_TOXFILE_ARGS
      ["toxfile", "-a", "-z", "save.tox"] [⟨'a', none⟩] [] none ["save.tox"] (by decide)⟩

set_option maxRecDepth 100000 in
/-- C8 fails as stated: for `toxfile -z save.tox`, where `-z` is no known flag,
the request has `print_help` set and differs from the request for
`toxfile save.tox`, and the program prints the help text and exits. -/
theorem unrecognized_flag_not_ignored :
    getopt_scan none ["-z", "save.tox"] = ([⟨'?', none⟩], ["save.tox"]) ∧
    (parse_request INIT_TOXFILE_ARGS ["toxfile", "-z", "save.tox"]).print_help = true ∧
    (parse_request INIT_TOXFILE_ARGS ["toxfile", "save.tox"]).print_help = false ∧
    parse_request INIT_TOXFILE_ARGS ["toxfile", "-z", "save.tox"] ≠
      parse_request INIT_TOXFILE_ARGS ["toxfile", "save.tox"] ∧
    parse_arguments toxConsts acceptingEnv sampleWorld INIT_TOXFILE_ARGS
        ["toxfile", "-z", "save.tox"] =
      (print_help sampleWorld, Outcome.exit 0) := by
  decide

/-! ## Instances of the conditional statements -/

theorem toxfile_decrypt_already_decrypted_witness :
    toxConsts.TOXFILE_ERR_ALREADY_ENC ≠ 0 ∧ plainArgs.was_encrypted = false ∧
    (toxfile_decrypt toxConsts acceptingEnv sampleWorld sampleTox plainArgs).2 = 4 ∧
    (toxfile_decrypt toxConsts acceptingEnv sampleWorld sampleTox plainArgs).1.trace = [] ∧
    (toxfile_decrypt toxConsts acceptingEnv sampleWorld sampleTox plainArgs).1.fs =
      sampleWorld.fs :=
  have h := toxfile_decrypt_already_decrypted toxConsts acceptingEnv sampleWorld sampleTox
    plainArgs (by decide) rfl
  ⟨by decide, rfl, h.1, h.2.2.1, h.2.2.2.1⟩

theorem toxfile_save_enc_rejection_leaves_empty_file_witness :
    rejectingEnv.fopen_ok "save.tox" = true ∧
    rejectingEnv.tox_pass_encrypt
        (fill_buffer (tox_get_savedata_size sampleTox % 2 ^ 32) sampleTox.savedata)
        (c_strlen_bytes [0x70, 0x77, 0]) = EncryptResult.error 2 ∧
    sampleWorld.stat "save.tox" = some (Entry.regular [1, 2, 3, 4, 5, 6, 7, 8]) ∧
    (toxfile_save_enc toxConsts rejectingEnv sampleWorld sampleTox "save.tox"
        [0x70, 0x77, 0]).1.stat "save.tox" = some (Entry.regular []) ∧
    (toxfile_save_enc toxConsts rejectingEnv sampleWorld sampleTox "save.tox"
        [0x70, 0x77, 0]).2 = toxConsts.TOXFILE_ERR_ENCRYPTED_SAVE :=
  have h := toxfile_save_enc_rejection_leaves_empty_file toxConsts rejectingEnv sampleWorld
    sampleTox "save.tox" [0x70, 0x77, 0] 2 rfl rfl
  ⟨rfl, rfl, by decide, h.2.2, h.1⟩

set_option maxRecDepth 100000 in
theorem toxfile_do_full_dump_iff_witness :
    sampleTox.Loaded toxConsts ∧
    (Event.print_tox_fields ∈
        new_events sampleWorld (toxfile_do toxConsts acceptingEnv sampleWorld sampleTox plainArgs) ↔
      plainArgs.operation = TOXFILE_OP_NONE ∧
        plainArgs.exclusive_print = TOXFILE_EXPRINT_NONE) ∧
    (toxfile_do toxConsts acceptingEnv sampleWorld sampleTox plainArgs).stdout =
      "Basic Info:\n" ++
      " Address:    ABABABABABABABABABABABABABABABABABABABABABABABABABABABABABABABABABABABABABAB\n" ++
      " Tox Name:   bob\n" ++
      " Tox Status: hi\n" ++
      "Crypto Info:\n" ++
      " Public key:  0C0C0C0C0C0C0C0C0C0C0C0C0C0C0C0C0C0C0C0C0C0C0C0C0C0C0C0C0C0C0C0C\n" :=
  have h := toxfile_do_full_dump_iff toxConsts acceptingEnv sampleWorld sampleTox plainArgs
    (by decide)
  ⟨by decide, h.1, ((h.2 rfl rfl).2).trans (by decide)⟩

end Toxfile
